import Mathlib

/-!
Verification of the `pino-sentry` transport (`src/transport.ts`, the current
revision starting at the `SentryInstance` export) against its specification.

The embedding models JavaScript runtime values flowing through the transport
as an inductive `JValue` type: JSON-decoded records are trees of nulls,
booleans, integers, strings, arrays and objects, and — because
`prepareAndGo` also tests `message instanceof Error` — a constructor for
Error instances.  JavaScript `undefined` is modelled as `Option.none` at the
use sites (field lookup, dotted-path traversal).  Numbers are modelled as
integers: every level code and every value appearing in the claims is an
integer, and non-integer JSON numbers play no role in the transport logic.

The compiled module runs in strict mode (`tsc` emits a `"use strict"`
prologue, and class bodies are strict-mode code regardless), so property
assignment to a primitive value throws a `TypeError`.  `setField` therefore
returns `Except`: the transport's in-place tags augmentation
(`tags.uuid = ...` etc.) can throw when `chunk.tags` resolves to a truthy
primitive, and `prepareAndGo` propagates that as an error outcome with no
capture call.  Arrays and Error instances are extensible objects, so they
carry an own-property list that assignment extends.

Property reads are modelled with own-property boxing: a string exposes
`length` and its character indices, an array exposes `length`, its indices
and its assigned named properties.  Reads that would yield inherited
prototype methods (function values, e.g. `"x".charAt`) are outside the
value grammar and modelled as absent; no claim depends on method-name keys.
Reading a property of `null` throws in JavaScript; the dotted-path helper
never performs such a read (its `&&` guard short-circuits on every falsy
accumulator), and a decoded `null` record never reaches the transformer
(split2's `push(null)` signals end-of-stream), so `field` on `jnull` is
total and theorems about whole-record processing assume a non-null record.

Two unreachable-in-the-transport corners of assignment are simplified and
noted: writing a numeric index at or beyond an array's length (which would
create a sparse array) and writing `length` are modelled as named-property
writes — the transport only ever assigns the fixed keys `uuid`,
`responseTime` and `hostname`.
-/

/-- A JavaScript runtime value as it appears in the transport: the JSON
value tree produced by `JSON.parse`, plus Error instances (`jerror`), which
`prepareAndGo` tests for with `message instanceof Error` and which
`ExtendedError` constructs.  Arrays and Error instances carry a list of
assigned own named properties (empty when freshly decoded / constructed). -/
inductive JValue where
  | jnull : JValue
  | jbool : Bool → JValue
  | jnum : Int → JValue
  | jstr : String → JValue
  | jarr : List JValue → List (String × JValue) → JValue
  | jobj : List (String × JValue) → JValue
  | jerror : String → String → JValue → List (String × JValue) → JValue
  deriving Repr

namespace JValue

/-- JavaScript truthiness of a defined value: `null`, `false`, `0` and the
empty string are falsy; objects, arrays and Error instances are truthy. -/
def truthy : JValue → Bool
  | jnull => false
  | jbool b => b
  | jnum n => n != 0
  | jstr s => s ≠ ""
  | jarr _ _ => true
  | jobj _ => true
  | jerror _ _ _ _ => true

/-- JavaScript truthiness of a possibly-undefined value (`undefined` is
falsy). -/
def truthyOpt : Option JValue → Bool
  | none => false
  | some v => v.truthy

/-- JavaScript `String(v)` coercion, used for object property keys
(`SEVERITIES_MAP[level]` coerces its key to a string) and by the `Error`
constructor.  Arrays stringify as their elements joined by commas with
`null` rendered empty (named properties do not participate); plain objects
as `"[object Object]"`; Error instances via `Error.prototype.toString`. -/
def jsToString : JValue → String
  | jnull => "null"
  | jbool true => "true"
  | jbool false => "false"
  | jnum n => toString n
  | jstr s => s
  | jarr l _ => jsArrJoin l
  | jobj _ => "[object Object]"
  | jerror name msg _ _ => if msg = "" then name else name ++ ": " ++ msg
where
  /-- `Array.prototype.toString`: elements joined by `","`, `null`
  rendered as the empty string. -/
  jsArrJoin : List JValue → String
  | [] => ""
  | [jnull] => ""
  | [v] => jsToString v
  | jnull :: rest => "," ++ jsArrJoin rest
  | v :: rest => jsToString v ++ "," ++ jsArrJoin rest

/-- Replace-or-append update of an association list, modelling assignment
to a key of a JavaScript object (an existing key keeps its insertion
position; a new key is appended). -/
def assocSet : List (String × JValue) → String → JValue → List (String × JValue)
  | [], k, v => [(k, v)]
  | (k', v') :: rest, k, v =>
      if k' = k then (k, v) :: rest else (k', v') :: assocSet rest k v

/-- The canonical decimal array-index reading of a property key, if any
(`"3"` indexes an array or string, `"03"` does not). -/
def decIndex (k : String) : Option Nat :=
  if k.data ≠ [] ∧ k.data.all Char.isDigit then
    let i := k.data.foldl (fun a c => a * 10 + (c.toNat - 48)) 0
    if toString i = k then some i else none
  else none

/-- JavaScript property read `v[k]`: `none` models `undefined`.  Objects
look keys up.  Boxing exposes own properties of primitives and exotic
objects: a string answers `length` and canonical character indices; an
array answers canonical indices, `length` and its assigned named
properties; an Error instance answers its assigned properties, then
`name`, `message` and `stack`.  Reads that would yield inherited prototype
methods, and reads on `null` (which throw in JavaScript but are
unreachable here — see the module comment), are `undefined`. -/
def field : JValue → String → Option JValue
  | jobj fields, k => fields.lookup k
  | jarr elems props, k =>
      (match decIndex k with
       | some i => elems.get? i
       | none => if k = "length" then some (jnum elems.length) else props.lookup k)
  | jstr s, k =>
      if k = "length" then some (jnum s.length)
      else
        (match decIndex k with
         | some i =>
             (match s.data.get? i with
              | some ch => some (jstr (String.mk [ch]))
              | none => none)
         | none => none)
  | jerror name msg stk props, k =>
      (match props.lookup k with
       | some v => some v
       | none =>
         if k = "name" then some (jstr name)
         else if k = "message" then some (jstr msg)
         else if k = "stack" then some stk
         else none)
  | _, _ => none

/-- The strict-mode `TypeError` raised by assignment to a property of a
primitive value. -/
def typeErrorMsg (k : String) : String :=
  "TypeError: Cannot create property " ++ k ++ " on a primitive value"

/-- JavaScript property write `v[k] := x` in strict mode: objects, arrays
and Error instances (all extensible objects) accept the write; on a
primitive (`null`, boolean, number, string) the write throws a
`TypeError`.  Numeric-index and `length` writes on arrays are modelled as
named-property writes (unreachable in the transport — see the module
comment). -/
def setField : JValue → String → JValue → Except String JValue
  | jobj fields, k, v => Except.ok (jobj (assocSet fields k v))
  | jarr elems props, k, v =>
      (match decIndex k with
       | some i =>
           if i < elems.length then Except.ok (jarr (elems.set i v) props)
           else Except.ok (jarr elems (assocSet props k v))
       | none => Except.ok (jarr elems (assocSet props k v)))
  | jerror name msg stk props, k, v =>
      Except.ok (jerror name msg stk (assocSet props k v))
  | _, k, _ => Except.error (typeErrorMsg k)

/-- `Object.keys`/value enumeration: own enumerable properties, integer
keys in ascending order first, then named keys in insertion order.
For an Error instance the `ExtendedError` constructor's assignments make
`name` and `stack` its own enumerable properties (`message`, set by the
base `Error` constructor, is non-enumerable); later assigned properties
follow or overwrite them. -/
def jsEntries : JValue → List (String × JValue)
  | jobj fields => fields
  | jarr elems props => elems.enum.map (fun p => (toString p.1, p.2)) ++ props
  | jerror name _ stk props =>
      props.foldl (fun acc kv => assocSet acc kv.1 kv.2)
        [("name", jstr name), ("stack", stk)]
  | _ => []

/-- `Object.values`. -/
def jsValues (v : JValue) : List JValue := (jsEntries v).map (·.2)

/-- The JavaScript idiom `x || d` applied to a possibly-undefined value:
the value if defined and truthy, otherwise the default. -/
def jsOrD (o : Option JValue) (d : JValue) : JValue :=
  match o with
  | some v => if v.truthy then v else d
  | none => d

end JValue

/-- `isObject` from the transport: `typeof obj` is `'function'` or
(`'object'` and truthy).  `typeof null` is `'object'` but `null` is falsy;
arrays and Error instances are objects; no function values occur in
records. -/
def isObject : JValue → Bool
  | JValue.jobj _ => true
  | JValue.jarr _ _ => true
  | JValue.jerror _ _ _ _ => true
  | _ => false

/-- Split a character list at every occurrence of a separator character
(the splitter underlying both `path.split('.')` and the line splitter). -/
def splitOnChar (c : Char) : List Char → List (List Char)
  | [] => [[]]
  | x :: rest =>
      if x = c then [] :: splitOnChar c rest
      else
        match splitOnChar c rest with
        | h :: t => (x :: h) :: t
        | [] => [[x]]

/-- `s.split(c)` as JavaScript's `String.prototype.split` with a
single-character separator behaves. -/
def splitString (c : Char) (s : String) : List String :=
  (splitOnChar c s.data).map (fun l => String.mk l)

/-- One step of the dotted-path helper `get(data, path)` from the
transport: `(acc, part) => acc && acc[part]`.  The step returns `acc`
itself when `acc` is falsy (JavaScript `&&` yields its first operand
then) — in particular `null` and `undefined`, the only values whose
property reads would throw, are never read — and otherwise the property
read `acc[part]`, which is `undefined` (`none`) when absent. -/
def jsGetStep (acc : Option JValue) (part : String) : Option JValue :=
  match acc with
  | none => none
  | some v => if v.truthy then v.field part else some v

/-- `get(data, path)`:
`path.split('.').reduce((acc, part) => acc && acc[part], data)`. -/
def jsGet (data : JValue) (path : String) : Option JValue :=
  (splitString '.' path).foldl jsGetStep (some data)

/-- The normalized severity set of `@sentry/types` as re-declared locally
in the transport (`enum Severity`). -/
inductive Severity where
  | debug | log | info | warning | error | fatal | critical
  deriving DecidableEq, Repr

/-- The string value each `Severity` enum member carries. -/
def Severity.name : Severity → String
  | .debug => "debug"
  | .log => "log"
  | .info => "info"
  | .warning => "warning"
  | .error => "error"
  | .fatal => "fatal"
  | .critical => "critical"

/-- `SEVERITIES_MAP` keyed by the JavaScript property key (object keys are
strings, so the numeric keys `10`..`60` are the strings `"10"`..`"60"`). -/
def severitiesMapLookup : String → Option Severity
  | "10" => some .debug
  | "20" => some .debug
  | "30" => some .info
  | "40" => some .warning
  | "50" => some .error
  | "60" => some .fatal
  | "trace" => some .debug
  | "debug" => some .debug
  | "info" => some .info
  | "warning" => some .warning
  | "error" => some .error
  | "fatal" => some .fatal
  | _ => none

/-- `getLogSeverity(level)`: `SEVERITIES_MAP[level] || Severity.Info`.
The property access coerces `level` to a string key; an absent `level`
(`undefined`) has no matching key; every mapped enum value is a non-empty
string, hence truthy, so `||` only takes effect on a failed lookup. -/
def getLogSeverity : Option JValue → Severity
  | none => .info
  | some v => (severitiesMapLookup v.jsToString).getD .info

/-- `SeverityIota`: the strictly increasing rank of each severity. -/
def severityIota : Severity → Nat
  | .debug => 1
  | .log => 2
  | .info => 3
  | .warning => 4
  | .error => 5
  | .fatal => 6
  | .critical => 7

/-- `Object.keys(SeverityIota)` in declaration order, used both for the
`level` option membership check and in the error message. -/
def severityIotaKeys : List String :=
  ["debug", "log", "info", "warning", "error", "fatal", "critical"]

/-- `SeverityIota[name]` for a string `level` option. -/
def severityIotaLookup : String → Option Nat
  | "debug" => some 1
  | "log" => some 2
  | "info" => some 3
  | "warning" => some 4
  | "error" => some 5
  | "fatal" => some 6
  | "critical" => some 7
  | _ => none

/-- A per-record Sentry scope as the transport uses it: a level set via
`setLevel`, tag and extra key/value sets, and an ordered breadcrumb
sequence. -/
structure Scope where
  level : Option Severity := none
  tags : List (String × JValue) := []
  extras : List (String × JValue) := []
  breadcrumbs : List JValue := []
  deriving Repr

def Scope.empty : Scope := {}

def Scope.setLevel (s : Scope) (sev : Severity) : Scope := { s with level := some sev }

def Scope.setTag (s : Scope) (k : String) (v : JValue) : Scope :=
  { s with tags := JValue.assocSet s.tags k v }

def Scope.setExtra (s : Scope) (k : String) (v : JValue) : Scope :=
  { s with extras := JValue.assocSet s.extras k v }

def Scope.addBreadcrumb (s : Scope) (b : JValue) : Scope :=
  { s with breadcrumbs := s.breadcrumbs ++ [b] }

/-- The transport's per-instance configuration: the fields of
`PinoSentryTransport` with their declared defaults, plus the
`decorateScope` hook (default: do nothing). -/
structure Config where
  minimumLogLevel : Nat := 1
  messageAttributeKey : String := "msg"
  extraAttributeKeys : List String := ["extra"]
  stackAttributeKey : String := "stack"
  maxValueLength : Nat := 250
  sentryExceptionLevels : List Severity := [.fatal, .error]
  decorateScope : JValue → Scope → Scope := fun _ s => s

def Config.default : Config := {}

/-- `shouldLog(severity)`: `SeverityIota[severity] >= this.minimumLogLevel`. -/
def shouldLog (cfg : Config) (sev : Severity) : Bool :=
  severityIota sev ≥ cfg.minimumLogLevel

/-- `isSentryException(level)`: `this.sentryExceptionLevels.includes(level)`. -/
def isSentryException (cfg : Config) (sev : Severity) : Bool :=
  cfg.sentryExceptionLevels.contains sev

/-- `message instanceof Error`. -/
def instanceOfError : JValue → Bool
  | JValue.jerror _ _ _ _ => true
  | _ => false

/-- `new ExtendedError({ message, stack })`: the base `Error` constructor
coerces a defined message to a string (an undefined message leaves the
message empty); the subclass then sets `name = "Error"` and
`stack = info.stack || null`. -/
def extendedError (message : Option JValue) (stack : JValue) : JValue :=
  JValue.jerror "Error"
    (match message with
     | some v => v.jsToString
     | none => "")
    (if stack.truthy then stack else JValue.jnull)
    []

/-- An external capture call issued by the dispatch router: either
`Sentry.captureException(error, scope)` or
`Sentry.captureMessage(message, scope)`. -/
inductive CaptureCall where
  | exc : JValue → Scope → CaptureCall
  | msg : Option JValue → Scope → CaptureCall
  deriving Repr

/-- One truthiness-guarded augmentation of the tags value:
`if (chunk.x) \x7b tags.dst = chunk.x \x7d` — the write happens only when
the source field is present and truthy, and (being a strict-mode write)
throws a `TypeError` when the tags value is a primitive. -/
def augmentIf (tags : JValue) (cond : Option JValue) (dst : String) :
    Except String JValue :=
  match cond with
  | some v => if v.truthy then tags.setField dst v else Except.ok tags
  | none => Except.ok tags

/-- The `tags` local of `prepareAndGo`: `chunk.tags || {}` followed by the
three truthiness-guarded in-place augmentations (`uuid` from `reqId`,
`responseTime`, `hostname`).  When `chunk.tags` resolves to a truthy
primitive and one of the three source fields is present and truthy, the
corresponding assignment throws. -/
def buildTags (chunk : JValue) : Except String JValue :=
  let tags := JValue.jsOrD (chunk.field "tags") (JValue.jobj [])
  match augmentIf tags (chunk.field "reqId") "uuid" with
  | Except.error e => Except.error e
  | Except.ok tags =>
      match augmentIf tags (chunk.field "responseTime") "responseTime" with
      | Except.error e => Except.error e
      | Except.ok tags => augmentIf tags (chunk.field "hostname") "hostname"

/-- The `extra` local of `prepareAndGo`: a fresh plain object receiving
`chunk[key]` under `key` for every configured extra attribute key whose
value is not `undefined` (writes on the fresh object never throw). -/
def buildExtra (cfg : Config) (chunk : JValue) : JValue :=
  JValue.jobj
    (cfg.extraAttributeKeys.foldl
      (fun e k =>
        match chunk.field k with
        | some v => JValue.assocSet e k v
        | none => e)
      [])

/-- The `breadcrumbs` local of `prepareAndGo`: `chunk.breadcrumbs || {}`
(read and enumerated only, never assigned to). -/
def buildBreadcrumbs (chunk : JValue) : JValue :=
  JValue.jsOrD (chunk.field "breadcrumbs") (JValue.jobj [])

/-- The scope assembly of `prepareAndGo`, given the successfully augmented
tags value: a fresh scope, the `decorateScope` hook, `setLevel`, then the
three `isObject`-guarded population sections (tags, extra, breadcrumbs). -/
def buildScope (cfg : Config) (chunk : JValue) (severity : Severity)
    (tags : JValue) : Scope :=
  let scope := cfg.decorateScope chunk Scope.empty
  let scope := scope.setLevel severity
  let scope :=
    if isObject tags then
      (JValue.jsEntries tags).foldl (fun s kv => s.setTag kv.1 kv.2) scope
    else scope
  let extra := buildExtra cfg chunk
  let scope :=
    if isObject extra then
      (JValue.jsEntries extra).foldl (fun s kv => s.setExtra kv.1 kv.2) scope
    else scope
  let breadcrumbs := buildBreadcrumbs chunk
  if isObject breadcrumbs then
    (JValue.jsValues breadcrumbs).foldl (fun s b => s.addBreadcrumb b) scope
  else scope

/-- The error value dispatched by the exception branch:
`message instanceof Error ? message : new ExtendedError({ message, stack })`. -/
def dispatchError (message : Option JValue) (stack : JValue) : JValue :=
  match message with
  | some v => if instanceOfError v then v else extendedError (some v) stack
  | none => extendedError none stack

/-- `prepareAndGo(chunk, cb)` as a function from a record to its outcome:
`Except.ok none` when the record is filtered by `shouldLog` (the callback
is then signalled with no call); `Except.error e` when the strict-mode
tags augmentation throws a `TypeError` (the exception propagates out of
the transform callback before any capture call and before completion
signalling); otherwise exactly one capture call, chosen by
`isSentryException`.  `message` is the dotted-path read of the message
attribute key, `stack` that of the stack attribute key defaulted to `''`. -/
def prepareAndGo (cfg : Config) (chunk : JValue) :
    Except String (Option CaptureCall) :=
  let severity := getLogSeverity (chunk.field "level")
  if ¬ shouldLog cfg severity then Except.ok none
  else
    match buildTags chunk with
    | Except.error e => Except.error e
    | Except.ok tags =>
        let message := jsGet chunk cfg.messageAttributeKey
        let stack := JValue.jsOrD (jsGet chunk cfg.stackAttributeKey) (JValue.jstr "")
        let scope := buildScope cfg chunk severity tags
        if isSentryException cfg severity then
          Except.ok (some (CaptureCall.exc (dispatchError message stack) scope))
        else
          Except.ok (some (CaptureCall.msg message scope))

/-- The options accepted by the transport constructor that affect the
behaviour modelled here.  `level` is an arbitrary runtime string (the CLI
forwards user input unchecked); absent options are `none`. -/
structure TransportOptions where
  dsn : Option String := none
  level : Option String := none
  messageAttributeKey : Option String := none
  extraAttributeKeys : Option (List String) := none
  stackAttributeKey : Option String := none
  maxValueLength : Option Nat := none
  sentryExceptionLevels : Option (List Severity) := none
  decorateScope : Option (JValue → Scope → Scope) := none

/-- Outcome of a successful `validateOptions`: the configured transport
and whether the missing-DSN warning was printed. -/
structure ValidatedTransport where
  config : Config
  dsnWarning : Bool

/-- The message of the error thrown for a rejected `level` option. -/
def levelErrorMessage (lvl : String) : String :=
  "[pino-sentry] Option `level` must be one of: "
    ++ String.intercalate ", " severityIotaKeys
    ++ ". Received: " ++ lvl

/-- `validateOptions`, which the `PinoSentryTransport` constructor runs
synchronously (inside `Sentry.init(this.validateOptions(...))`) before any
record is processed.  `dsn` falls back from the option to the
`SENTRY_DSN` environment variable via `||`; `if (!dsn)` prints a warning
and continues.  `if (options.level)` guards the level validation, so only
a truthy (non-empty) `level` string is checked against
`Object.keys(SeverityIota)`; a failed check throws with
`levelErrorMessage`.  The remaining attribute keys are defaulted with
`??`. -/
def validateOptions (opts : TransportOptions) (envDsn : Option String) :
    Except String ValidatedTransport :=
  let dsn : Option String :=
    match opts.dsn with
    | some s => if s ≠ "" then some s else envDsn
    | none => envDsn
  let dsnWarning : Bool :=
    match dsn with
    | some s => s = ""
    | none => true
  let levelResult : Except String Nat :=
    match opts.level with
    | some lvl =>
        if lvl ≠ "" then
          if severityIotaKeys.contains lvl then
            Except.ok ((severityIotaLookup lvl).getD 1)
          else
            Except.error (levelErrorMessage lvl)
        else Except.ok 1
    | none => Except.ok 1
  match levelResult with
  | Except.error e => Except.error e
  | Except.ok minLevel =>
      Except.ok
        { config :=
            { minimumLogLevel := minLevel
              messageAttributeKey := opts.messageAttributeKey.getD "msg"
              extraAttributeKeys := opts.extraAttributeKeys.getD ["extra"]
              stackAttributeKey := opts.stackAttributeKey.getD "stack"
              maxValueLength := opts.maxValueLength.getD 250
              sentryExceptionLevels := opts.sentryExceptionLevels.getD [.fatal, .error]
              decorateScope := opts.decorateScope.getD (fun _ s => s) }
          dsnWarning := dsnWarning }

namespace JsonDecode

/-!
A model of the platform `JSON.parse` as used by `createWriteStream`'s line
mapper.  It accepts objects, arrays, strings (with the standard escapes),
integral numbers, `true`, `false` and `null`, and rejects everything else;
non-integral numbers are outside the integer-valued embedding and are
rejected (no claim involves them).  Parsing is fuelled; the initial fuel of
`createWriteStream`'s caller is ample for any input of its length.
-/

def lbrace : Char := Char.ofNat 123

def rbrace : Char := Char.ofNat 125

def isWs (c : Char) : Bool := c = ' ' || c = '\t' || c = '\n' || c = '\r'

def skipWs : List Char → List Char
  | c :: rest => if isWs c then skipWs rest else c :: rest
  | [] => []

def hexDigit (c : Char) : Option Nat :=
  if '0' ≤ c ∧ c ≤ '9' then some (c.toNat - 48)
  else if 'a' ≤ c ∧ c ≤ 'f' then some (c.toNat - 87)
  else if 'A' ≤ c ∧ c ≤ 'F' then some (c.toNat - 55)
  else none

def parseStringBody (acc : String) : List Char → Option (String × List Char)
  | [] => none
  | c :: rest =>
    if c = '"' then some (acc, rest)
    else if c.toNat < 32 then none
    else if c = '\\' then
      match rest with
      | [] => none
      | e :: rest2 =>
        if e = '"' then parseStringBody (acc.push '"') rest2
        else if e = '\\' then parseStringBody (acc.push '\\') rest2
        else if e = '/' then parseStringBody (acc.push '/') rest2
        else if e = 'n' then parseStringBody (acc.push '\n') rest2
        else if e = 't' then parseStringBody (acc.push '\t') rest2
        else if e = 'r' then parseStringBody (acc.push '\r') rest2
        else if e = 'b' then parseStringBody (acc.push (Char.ofNat 8)) rest2
        else if e = 'f' then parseStringBody (acc.push (Char.ofNat 12)) rest2
        else if e = 'u' then
          match rest2 with
          | h1 :: h2 :: h3 :: h4 :: rest3 =>
            match hexDigit h1, hexDigit h2, hexDigit h3, hexDigit h4 with
            | some a, some b, some c3, some d =>
                parseStringBody (acc.push (Char.ofNat (((a * 16 + b) * 16 + c3) * 16 + d))) rest3
            | _, _, _, _ => none
          | _ => none
        else none
    else parseStringBody (acc.push c) rest

def digitsToNat (ds : List Char) : Nat :=
  ds.foldl (fun a c => a * 10 + (c.toNat - 48)) 0

/-- An unsigned JSON integer: digits with no superfluous leading zero, not
followed by a fraction or exponent marker. -/
def parseNat (cs : List Char) : Option (Nat × List Char) :=
  let p := cs.span (fun c => c.isDigit)
  match p.1 with
  | [] => none
  | d :: ds =>
      if d = '0' ∧ ds ≠ [] then none
      else
        match p.2 with
        | c :: _ => if c = '.' || c = 'e' || c = 'E' then none else some (digitsToNat (d :: ds), p.2)
        | [] => some (digitsToNat (d :: ds), p.2)

def parseNumber (cs : List Char) : Option (JValue × List Char) :=
  match cs with
  | '-' :: rest => (parseNat rest).map (fun p => (JValue.jnum (-(p.1 : Int)), p.2))
  | _ => (parseNat cs).map (fun p => (JValue.jnum (p.1 : Int), p.2))

mutual

def parseValue : Nat → List Char → Option (JValue × List Char)
  | 0, _ => none
  | fuel + 1, cs =>
    match skipWs cs with
    | [] => none
    | c :: rest =>
      if c = lbrace then
        match skipWs rest with
        | c2 :: rest2 =>
            if c2 = rbrace then some (JValue.jobj [], rest2)
            else parseMembers fuel (c2 :: rest2) []
        | [] => none
      else if c = '[' then
        match skipWs rest with
        | ']' :: rest2 => some (JValue.jarr [] [], rest2)
        | cs2 => parseElements fuel cs2 []
      else if c = '"' then
        (parseStringBody "" rest).map (fun p => (JValue.jstr p.1, p.2))
      else
        match c :: rest with
        | 't' :: 'r' :: 'u' :: 'e' :: rest2 => some (JValue.jbool true, rest2)
        | 'f' :: 'a' :: 'l' :: 's' :: 'e' :: rest2 => some (JValue.jbool false, rest2)
        | 'n' :: 'u' :: 'l' :: 'l' :: rest2 => some (JValue.jnull, rest2)
        | cs2 => parseNumber cs2

def parseMembers : Nat → List Char → List (String × JValue) → Option (JValue × List Char)
  | 0, _, _ => none
  | fuel + 1, cs, acc =>
    match skipWs cs with
    | '"' :: rest =>
      match parseStringBody "" rest with
      | some (key, rest2) =>
        (match skipWs rest2 with
         | ':' :: rest3 =>
           match parseValue fuel rest3 with
           | some (v, rest4) =>
             (let acc2 := JValue.assocSet acc key v
              match skipWs rest4 with
              | ',' :: rest5 => parseMembers fuel rest5 acc2
              | c :: rest5 => if c = rbrace then some (JValue.jobj acc2, rest5) else none
              | [] => none)
           | none => none
         | _ => none)
      | none => none
    | _ => none

def parseElements : Nat → List Char → List JValue → Option (JValue × List Char)
  | 0, _, _ => none
  | fuel + 1, cs, acc =>
    match parseValue fuel cs with
    | some (v, rest) =>
      (match skipWs rest with
       | ',' :: rest2 => parseElements fuel rest2 (acc ++ [v])
       | ']' :: rest2 => some (JValue.jarr (acc ++ [v]) [], rest2)
       | _ => none)
    | none => none

end

end JsonDecode

/-- The line mapper of `createWriteStream`: `JSON.parse(line)`, with a
parse failure caught and turned into `undefined` (`none`), so that split2
does not emit the line downstream. -/
def jsonParse (s : String) : Option JValue :=
  match JsonDecode.parseValue (2 * s.length + 2) s.data with
  | some (v, rest) =>
      match JsonDecode.skipWs rest with
      | [] => some v
      | _ => none
  | none => none

/-- Strip one trailing carriage return, for split2's default `/\r?\n/`
matcher modelled as a split on `'\n'`. -/
def stripCr (t : String) : String :=
  match t.data.reverse with
  | '\r' :: rest => String.mk rest.reverse
  | _ => t

/-- The segments split2 forms from the whole input: the pieces between
newlines (each with the carriage return of a `\r\n` removed), plus the
held final fragment (the piece after the last newline, possibly empty). -/
def split2Segments (s : String) : List String :=
  let pieces := splitString '\n' s
  match pieces.reverse with
  | [] => []
  | last :: revInit => revInit.reverse.map stripCr ++ [last]

/-- The records `createWriteStream` delivers to the transformer for a
given whole input: every complete line goes through the `JSON.parse`
mapper, the held final fragment only if non-empty (split2's flush checks
`if (this[kLast])`), lines on which the mapper yields `undefined` are not
emitted, and — because pushing a decoded `null` signals end-of-stream to
the object stream — delivery stops at the first line that decodes to
`null`. -/
def createWriteStreamRecords (input : String) : List JValue :=
  match (split2Segments input).reverse with
  | [] => []
  | last :: revInit =>
      let emitted := revInit.reverse ++ (if last ≠ "" then [last] else [])
      (emitted.filterMap jsonParse).takeWhile
        (fun v => match v with | JValue.jnull => false | _ => true)

/-- A pending callback scheduled with `setImmediate` inside
`prepareAndGo`: either the bare stream callback (filtered record) or a
capture call followed by the callback. -/
inductive Job where
  | cbOnly : Job
  | capture : CaptureCall → Job
  deriving Repr

/-- The state of one stream instance: records not yet delivered by
through2, the `setImmediate` queue of pending completion callbacks, the
capture calls issued so far, whether through2 is still awaiting the
current record's callback, and the error that destroyed the stream, if
any (a synchronous throw inside the transform callback). -/
structure MachineState where
  pending : List JValue
  jobs : List Job
  calls : List CaptureCall
  awaiting : Bool
  failed : Option String

/-- The `setImmediate` job `prepareAndGo` schedules for a record whose
processing did not throw. -/
def jobFor (o : Option CaptureCall) : Job :=
  match o with
  | none => Job.cbOnly
  | some c => Job.capture c

/-- One event-loop step of a stream instance.  A queued `setImmediate`
callback runs first (issuing its capture call, then signalling the stream
callback); otherwise, when the stream is not destroyed and the previous
record's callback has been signalled, through2 delivers the next record
to `prepareAndGo`, which either throws synchronously — destroying the
stream, with the remaining records never delivered — or classifies the
record and schedules exactly one callback.  `none` means the stream is
drained or destroyed. -/
def machineStep (cfg : Config) (s : MachineState) : Option MachineState :=
  match s.jobs with
  | j :: rest =>
      some { s with
        jobs := rest
        awaiting := false
        calls :=
          match j with
          | Job.cbOnly => s.calls
          | Job.capture c => s.calls ++ [c] }
  | [] =>
      if s.failed.isSome then none
      else if s.awaiting then none
      else
        match s.pending with
        | [] => none
        | chunk :: restPending =>
            match prepareAndGo cfg chunk with
            | Except.error e =>
                some { pending := restPending, jobs := [], calls := s.calls,
                       awaiting := false, failed := some e }
            | Except.ok o =>
                some { pending := restPending, jobs := [jobFor o],
                       calls := s.calls, awaiting := true, failed := none }

/-- Run the stream machine for a bounded number of event-loop steps
(stopping early once drained or destroyed). -/
def machineRun (cfg : Config) : Nat → MachineState → MachineState
  | 0, s => s
  | fuel + 1, s =>
      match machineStep cfg s with
      | none => s
      | some s2 => machineRun cfg fuel s2

/-- The initial state of a stream instance for a list of decoded records. -/
def machineInit (records : List JValue) : MachineState :=
  { pending := records, jobs := [], calls := [], awaiting := false, failed := none }

/-- The capture call a record contributes, if any (`none` both for a
filtered record and for one whose processing throws). -/
def callOf (cfg : Config) (r : JValue) : Option CaptureCall :=
  match prepareAndGo cfg r with
  | Except.ok (some c) => some c
  | _ => none

/-- Whether processing a record throws (the strict-mode `TypeError` of the
tags augmentation). -/
def throwsOn (cfg : Config) (r : JValue) : Bool :=
  match prepareAndGo cfg r with
  | Except.error _ => true
  | Except.ok _ => false

/-- The records a stream instance processes to completion: the longest
prefix in which no record throws. -/
def okPrefix (cfg : Config) (l : List JValue) : List JValue :=
  l.takeWhile (fun r => ¬ throwsOn cfg r)

/-- The error thrown by the first throwing record together with the
records after it (which the destroyed stream never processes), if any. -/
def firstThrow (cfg : Config) : List JValue → Option (String × List JValue)
  | [] => none
  | r :: rest =>
      match prepareAndGo cfg r with
      | Except.error e => some (e, rest)
      | Except.ok _ => firstThrow cfg rest

/-- The twelve property keys of `SEVERITIES_MAP`. -/
def severitiesMapKeys : List String :=
  ["10", "20", "30", "40", "50", "60", "trace", "debug", "info", "warning", "error", "fatal"]

theorem severitiesMapLookup_eq_none (s : String) (h : s ∉ severitiesMapKeys) :
    severitiesMapLookup s = none := by
  unfold severitiesMapLookup
  split <;> simp_all [severitiesMapKeys]

/-- Claim C3 (counterexample): the decimal string `"50"` is not one of the
claim's recognized inputs (it is neither the number `50` nor one of the
six string labels), yet the severity normalization maps it to `error`, not
`info` — the numeric keys of `SEVERITIES_MAP` are string property keys, so
the string `"50"` hits the key written as `50`. -/
theorem getLogSeverity_string50_counterexample :
    getLogSeverity (some (JValue.jstr "50")) = Severity.error ∧
    Severity.error ≠ Severity.info := by
  exact ⟨rfl, by decide⟩

/-- Claim C3 (amended): severity normalization is total; it returns
`debug` for `10`, `20`, `"trace"`, `"debug"`; `info` for `30`, `"info"`;
`warning` for `40`, `"warning"`; `error` for `50`, `"error"`; `fatal` for
`60`, `"fatal"`; `info` for an absent level; and `info` for every other
input whose string property key is not among the map's twelve keys — in
particular the decimal strings `"10"`..`"60"` behave like their numeric
counterparts rather than falling through to `info`. -/
theorem getLogSeverity_normalization :
    getLogSeverity (some (JValue.jnum 10)) = Severity.debug ∧
    getLogSeverity (some (JValue.jnum 20)) = Severity.debug ∧
    getLogSeverity (some (JValue.jstr "trace")) = Severity.debug ∧
    getLogSeverity (some (JValue.jstr "debug")) = Severity.debug ∧
    getLogSeverity (some (JValue.jnum 30)) = Severity.info ∧
    getLogSeverity (some (JValue.jstr "info")) = Severity.info ∧
    getLogSeverity (some (JValue.jnum 40)) = Severity.warning ∧
    getLogSeverity (some (JValue.jstr "warning")) = Severity.warning ∧
    getLogSeverity (some (JValue.jnum 50)) = Severity.error ∧
    getLogSeverity (some (JValue.jstr "error")) = Severity.error ∧
    getLogSeverity (some (JValue.jnum 60)) = Severity.fatal ∧
    getLogSeverity (some (JValue.jstr "fatal")) = Severity.fatal ∧
    getLogSeverity (some (JValue.jstr "10")) = Severity.debug ∧
    getLogSeverity (some (JValue.jstr "50")) = Severity.error ∧
    getLogSeverity none = Severity.info ∧
    (∀ v : JValue, v.jsToString ∉ severitiesMapKeys → getLogSeverity (some v) = Severity.info) := by
  refine ⟨rfl, rfl, rfl, rfl, rfl, rfl, rfl, rfl, rfl, rfl, rfl, rfl, rfl, rfl, rfl, ?_⟩
  intro v hv
  show (severitiesMapLookup v.jsToString).getD Severity.info = Severity.info
  rw [severitiesMapLookup_eq_none _ hv]
  rfl

/-- Witness for the amended C3 theorem: the differently-cased string
`"ERROR"` and the unrecognized number `55` both normalize to `info`. -/
theorem getLogSeverity_normalization_witness :
    getLogSeverity (some (JValue.jstr "ERROR")) = Severity.info ∧
    getLogSeverity (some (JValue.jnum 55)) = Severity.info :=
  ⟨getLogSeverity_normalization.2.2.2.2.2.2.2.2.2.2.2.2.2.2.2 (JValue.jstr "ERROR") (by decide),
   getLogSeverity_normalization.2.2.2.2.2.2.2.2.2.2.2.2.2.2.2 (JValue.jnum 55) (by decide)⟩

/-- Claim C4 (counterexample): for the record `\x7b"data": 0\x7d` and the
dotted path `data.msg`, the intermediate segment `data` is present but its
value `0` is not a mapping, and the traversal does not short-circuit to
absent: `acc && acc[part]` returns the falsy value `0` itself, so the
extracted message is `0`, a defined value. -/
theorem jsGet_falsy_intermediate_counterexample :
    jsGet (JValue.jobj [("data", JValue.jnum 0)]) "data.msg" = some (JValue.jnum 0) ∧
    some (JValue.jnum 0) ≠ (none : Option JValue) := by
  refine ⟨by rfl, by simp⟩

/-- Claim C4 (amended): dotted-path resolution walks nested mappings and
never raises: with `messageAttributeKey = "data.msg"` the record
`\x7b"data":\x7b"msg":"boom"\x7d\x7d` resolves to `"boom"`, and
`data.missing` resolves to absent.  A missing intermediate stays absent
for the rest of the path; a falsy intermediate value (such as `0`) is
returned as-is by `acc && acc[part]` rather than becoming absent — this
same guard is what prevents the only property reads that could throw
(those on `null`/`undefined`); and a truthy primitive intermediate is
boxed, so its own properties are traversed (a string's `length` and
character indices). -/
theorem jsGet_dotted_path_extraction :
    jsGet (JValue.jobj [("data", JValue.jobj [("msg", JValue.jstr "boom")])]) "data.msg"
      = some (JValue.jstr "boom") ∧
    jsGet (JValue.jobj [("data", JValue.jobj [("msg", JValue.jstr "boom")])]) "data.missing"
      = none ∧
    (∀ part : String, jsGetStep none part = none) ∧
    (∀ (v : JValue) (part : String), v.truthy = false →
        jsGetStep (some v) part = some v) ∧
    jsGet (JValue.jobj [("data", JValue.jstr "boom")]) "data.length"
      = some (JValue.jnum 4) ∧
    jsGet (JValue.jobj [("data", JValue.jstr "boom")]) "data.0"
      = some (JValue.jstr "b") := by
  refine ⟨by rfl, by rfl, fun part => rfl, ?_, by rfl, by rfl⟩
  intro v part htr
  simp [jsGetStep, htr]

/-- Witness for the amended C4 theorem: the falsy number `0` is passed
through unchanged by the traversal step. -/
theorem jsGet_dotted_path_extraction_witness :
    jsGetStep (some (JValue.jnum 0)) "msg" = some (JValue.jnum 0) :=
  jsGet_dotted_path_extraction.2.2.2.1 (JValue.jnum 0) "msg" (by decide)

/-- Claim C5: for the input stream consisting of the three lines
`\x7b"level":30,"msg":"ok"\x7d`, `NOT-JSON` and
`\x7b"level":50,"msg":"bad"\x7d` (newline-terminated), the default stream
feeds exactly the first and third decoded records to the transformer; the
malformed second line maps to `undefined` and is silently dropped without
failing the stream. -/
theorem createWriteStream_malformed_line_tolerance :
    createWriteStreamRecords
        "\x7b\"level\":30,\"msg\":\"ok\"\x7d\nNOT-JSON\n\x7b\"level\":50,\"msg\":\"bad\"\x7d\n"
      = [JValue.jobj [("level", JValue.jnum 30), ("msg", JValue.jstr "ok")],
         JValue.jobj [("level", JValue.jnum 50), ("msg", JValue.jstr "bad")]] ∧
    jsonParse "NOT-JSON" = none ∧
    jsonParse "\x7b\"level\":30,\"msg\":\"ok\"\x7d"
      = some (JValue.jobj [("level", JValue.jnum 30), ("msg", JValue.jstr "ok")]) ∧
    jsonParse "\x7b\"level\":50,\"msg\":\"bad\"\x7d"
      = some (JValue.jobj [("level", JValue.jnum 50), ("msg", JValue.jstr "bad")]) := by
  refine ⟨by rfl, by rfl, by rfl, by rfl⟩

/-- Claim C1 (counterexample): the record
`\x7b"level":50,"msg":"x","tags":"t","hostname":"h"\x7d` passes the
threshold and its severity is in the default exception set, yet the
strict-mode write `tags.hostname = chunk.hostname` on the primitive tags
value throws a `TypeError` before the routing decision, so the external
capture-exception operation is never invoked — not exactly once. -/
theorem prepareAndGo_scalar_tags_throw_counterexample :
    prepareAndGo Config.default
        (JValue.jobj [("level", JValue.jnum 50), ("msg", JValue.jstr "x"),
          ("tags", JValue.jstr "t"), ("hostname", JValue.jstr "h")]) =
      Except.error (JValue.typeErrorMsg "hostname") ∧
    shouldLog Config.default
      (getLogSeverity ((JValue.jobj [("level", JValue.jnum 50), ("msg", JValue.jstr "x"),
        ("tags", JValue.jstr "t"), ("hostname", JValue.jstr "h")]).field "level")) = true ∧
    isSentryException Config.default
      (getLogSeverity ((JValue.jobj [("level", JValue.jnum 50), ("msg", JValue.jstr "x"),
        ("tags", JValue.jstr "t"), ("hostname", JValue.jstr "h")]).field "level")) = true ∧
    callOf Config.default
      (JValue.jobj [("level", JValue.jnum 50), ("msg", JValue.jstr "x"),
        ("tags", JValue.jstr "t"), ("hostname", JValue.jstr "h")]) = none := by
  refine ⟨by rfl, by rfl, by rfl, by rfl⟩

/-- Claim C1 (amended): for every passing non-null record whose tags
augmentation does not throw, the router issues exactly one capture call:
the capture-exception operation when the severity is in the configured
`sentryExceptionLevels` set — with the extracted message itself as the
error when it is an Error instance, and otherwise a synthesized
`ExtendedError` built from the extracted message and extracted stack —
and the capture-message operation with the extracted message for every
other passing severity; never both.  When the augmentation throws (a
truthy primitive tags value plus a present-and-truthy
`reqId`/`responseTime`/`hostname`), the strict-mode `TypeError`
propagates and no capture operation is invoked.  (A record decoding to
`null` never reaches the transformer — see the module comment.) -/
theorem prepareAndGo_exception_routing (cfg : Config) (chunk : JValue)
    (_hnn : chunk ≠ JValue.jnull)
    (hpass : shouldLog cfg (getLogSeverity (chunk.field "level")) = true) :
    (∀ e : String, buildTags chunk = Except.error e →
      prepareAndGo cfg chunk = Except.error e) ∧
    (∀ tags : JValue, buildTags chunk = Except.ok tags →
      (isSentryException cfg (getLogSeverity (chunk.field "level")) = true →
        (∀ v : JValue, jsGet chunk cfg.messageAttributeKey = some v → instanceOfError v = true →
          prepareAndGo cfg chunk =
            Except.ok (some (CaptureCall.exc v
              (buildScope cfg chunk (getLogSeverity (chunk.field "level")) tags)))) ∧
        (∀ v : JValue, jsGet chunk cfg.messageAttributeKey = some v → instanceOfError v = false →
          prepareAndGo cfg chunk =
            Except.ok (some (CaptureCall.exc
              (extendedError (some v)
                (JValue.jsOrD (jsGet chunk cfg.stackAttributeKey) (JValue.jstr "")))
              (buildScope cfg chunk (getLogSeverity (chunk.field "level")) tags))))) ∧
      (isSentryException cfg (getLogSeverity (chunk.field "level")) = false →
        prepareAndGo cfg chunk =
          Except.ok (some (CaptureCall.msg (jsGet chunk cfg.messageAttributeKey)
            (buildScope cfg chunk (getLogSeverity (chunk.field "level")) tags))))) := by
  constructor
  · intro e he
    simp [prepareAndGo, hpass, he]
  · intro tags ht
    refine ⟨fun hexc => ⟨?_, ?_⟩, fun hexc => ?_⟩
    · intro v hv hinst
      simp [prepareAndGo, hpass, ht, hexc, hv, dispatchError, hinst]
    · intro v hv hinst
      simp [prepareAndGo, hpass, ht, hexc, hv, dispatchError, hinst]
    · simp [prepareAndGo, hpass, ht, hexc]

/-- Witness for the amended C1 theorem: a `level=50` record with a plain
string message and no tags is captured as an exception synthesized from
message and stack; a `level=30` record is captured as a message; and the
scalar-tags record with a truthy hostname propagates the `TypeError`. -/
theorem prepareAndGo_exception_routing_witness :
    prepareAndGo Config.default
        (JValue.jobj [("level", JValue.jnum 50), ("msg", JValue.jstr "boom"), ("stack", JValue.jstr "tb")]) =
      Except.ok (some (CaptureCall.exc
        (extendedError (some (JValue.jstr "boom")) (JValue.jstr "tb"))
        (buildScope Config.default
          (JValue.jobj [("level", JValue.jnum 50), ("msg", JValue.jstr "boom"), ("stack", JValue.jstr "tb")])
          Severity.error (JValue.jobj [])))) ∧
    prepareAndGo Config.default (JValue.jobj [("level", JValue.jnum 30), ("msg", JValue.jstr "hi")]) =
      Except.ok (some (CaptureCall.msg (some (JValue.jstr "hi"))
        (buildScope Config.default (JValue.jobj [("level", JValue.jnum 30), ("msg", JValue.jstr "hi")])
          Severity.info (JValue.jobj [])))) ∧
    prepareAndGo Config.default
        (JValue.jobj [("level", JValue.jnum 50), ("msg", JValue.jstr "x"),
          ("tags", JValue.jstr "t"), ("hostname", JValue.jstr "h")]) =
      Except.error (JValue.typeErrorMsg "hostname") :=
  ⟨(((prepareAndGo_exception_routing Config.default
        (JValue.jobj [("level", JValue.jnum 50), ("msg", JValue.jstr "boom"), ("stack", JValue.jstr "tb")])
        (by simp) (by rfl)).2 (JValue.jobj []) (by rfl)).1 (by rfl)).2
      (JValue.jstr "boom") (by rfl) (by rfl),
   ((prepareAndGo_exception_routing Config.default
        (JValue.jobj [("level", JValue.jnum 30), ("msg", JValue.jstr "hi")])
        (by simp) (by rfl)).2 (JValue.jobj []) (by rfl)).2 (by rfl),
   (prepareAndGo_exception_routing Config.default
        (JValue.jobj [("level", JValue.jnum 50), ("msg", JValue.jstr "x"),
          ("tags", JValue.jstr "t"), ("hostname", JValue.jstr "h")])
        (by simp) (by rfl)).1 (JValue.typeErrorMsg "hostname") (by rfl)⟩

/-- Claim C2 (counterexample): with the threshold set to `error`, the
record `\x7b"level":50,"tags":5,"hostname":"h"\x7d` has severity `error`
— at the threshold, so by the claim it must produce exactly one external
capture call — yet the strict-mode tags augmentation throws before any
call, so the record produces zero capture calls. -/
theorem prepareAndGo_threshold_throw_counterexample :
    getLogSeverity ((JValue.jobj [("level", JValue.jnum 50), ("tags", JValue.jnum 5),
      ("hostname", JValue.jstr "h")]).field "level") = Severity.error ∧
    prepareAndGo { minimumLogLevel := 5 }
        (JValue.jobj [("level", JValue.jnum 50), ("tags", JValue.jnum 5), ("hostname", JValue.jstr "h")]) =
      Except.error (JValue.typeErrorMsg "hostname") ∧
    callOf { minimumLogLevel := 5 }
      (JValue.jobj [("level", JValue.jnum 50), ("tags", JValue.jnum 5), ("hostname", JValue.jstr "h")]) = none := by
  refine ⟨by rfl, by rfl, by rfl⟩

/-- Claim C2 (amended): a non-null record is filtered (outcome `ok none`:
zero capture calls, completion signalled immediately) exactly when the
rank of its normalized severity is below the configured threshold rank —
a test made before and independently of both exception classification and
the throwing tags augmentation.  With the threshold set to `error`,
severities of rank at most `warning`'s are filtered, while `error` and
`fatal` records each produce exactly one capture call when the tags
augmentation does not throw, and zero calls (a propagated strict-mode
`TypeError`) when it does. -/
theorem prepareAndGo_threshold_filtering (cfg : Config) (chunk : JValue)
    (_hnn : chunk ≠ JValue.jnull) :
    (prepareAndGo cfg chunk = Except.ok none ↔
      severityIota (getLogSeverity (chunk.field "level")) < cfg.minimumLogLevel) ∧
    (cfg.minimumLogLevel = severityIota Severity.error →
      (severityIota (getLogSeverity (chunk.field "level")) ≤ severityIota Severity.warning →
        prepareAndGo cfg chunk = Except.ok none) ∧
      ((getLogSeverity (chunk.field "level") = Severity.error ∨
        getLogSeverity (chunk.field "level") = Severity.fatal) →
        (∀ tags : JValue, buildTags chunk = Except.ok tags →
          ∃ c : CaptureCall, prepareAndGo cfg chunk = Except.ok (some c)) ∧
        (∀ e : String, buildTags chunk = Except.error e →
          prepareAndGo cfg chunk = Except.error e))) := by
  have hmain : prepareAndGo cfg chunk = Except.ok none ↔
      severityIota (getLogSeverity (chunk.field "level")) < cfg.minimumLogLevel := by
    constructor
    · intro h
      by_contra hlt
      simp only [not_lt] at hlt
      have hpass : shouldLog cfg (getLogSeverity (chunk.field "level")) = true := by
        simp [shouldLog, hlt]
      unfold prepareAndGo at h
      simp only [hpass] at h
      cases ht : buildTags chunk with
      | error e => simp [ht] at h
      | ok tags =>
          rw [ht] at h
          by_cases hexc : isSentryException cfg (getLogSeverity (chunk.field "level")) = true <;>
            simp_all
    · intro hlt
      have : ¬ shouldLog cfg (getLogSeverity (chunk.field "level")) = true := by
        simp [shouldLog]
        omega
      simp [prepareAndGo, this]
  refine ⟨hmain, fun hthr => ⟨fun hle => ?_, fun hef => ⟨fun tags ht => ?_, fun e he => ?_⟩⟩⟩
  · exact hmain.2 (by simp [hthr, severityIota] at hle ⊢; omega)
  · have hpass : shouldLog cfg (getLogSeverity (chunk.field "level")) = true := by
      rcases hef with h | h <;> simp [shouldLog, h, hthr, severityIota]
    by_cases hexc : isSentryException cfg (getLogSeverity (chunk.field "level")) = true
    · exact ⟨CaptureCall.exc
          (dispatchError (jsGet chunk cfg.messageAttributeKey)
            (JValue.jsOrD (jsGet chunk cfg.stackAttributeKey) (JValue.jstr "")))
          (buildScope cfg chunk (getLogSeverity (chunk.field "level")) tags),
        by simp [prepareAndGo, hpass, ht, hexc]⟩
    · exact ⟨CaptureCall.msg (jsGet chunk cfg.messageAttributeKey)
          (buildScope cfg chunk (getLogSeverity (chunk.field "level")) tags),
        by simp [prepareAndGo, hpass, ht, hexc]⟩
  · have hpass : shouldLog cfg (getLogSeverity (chunk.field "level")) = true := by
      rcases hef with h | h <;> simp [shouldLog, h, hthr, severityIota]
    simp [prepareAndGo, hpass, he]

/-- Witness for the amended C2 theorem: with the threshold at `error`,
a `level=40` (warning) record is filtered, a `level=60` (fatal) record
with object tags is forwarded as one call, and the throwing `level=50`
record propagates its `TypeError`. -/
theorem prepareAndGo_threshold_filtering_witness :
    prepareAndGo { minimumLogLevel := 5 } (JValue.jobj [("level", JValue.jnum 40)]) = Except.ok none ∧
    (∃ c : CaptureCall,
      prepareAndGo { minimumLogLevel := 5 } (JValue.jobj [("level", JValue.jnum 60)]) =
        Except.ok (some c)) ∧
    prepareAndGo { minimumLogLevel := 5 }
        (JValue.jobj [("level", JValue.jnum 50), ("tags", JValue.jnum 5), ("hostname", JValue.jstr "h")]) =
      Except.error (JValue.typeErrorMsg "hostname") :=
  ⟨((prepareAndGo_threshold_filtering { minimumLogLevel := 5 }
        (JValue.jobj [("level", JValue.jnum 40)]) (by simp)).2 (by rfl)).1 (by decide),
   (((prepareAndGo_threshold_filtering { minimumLogLevel := 5 }
        (JValue.jobj [("level", JValue.jnum 60)]) (by simp)).2 (by rfl)).2
      (by right; rfl)).1 (JValue.jobj []) (by rfl),
   (((prepareAndGo_threshold_filtering { minimumLogLevel := 5 }
        (JValue.jobj [("level", JValue.jnum 50), ("tags", JValue.jnum 5), ("hostname", JValue.jstr "h")])
        (by simp)).2 (by rfl)).2
      (by left; rfl)).2 (JValue.typeErrorMsg "hostname") (by rfl)⟩

theorem machineRun_succ (cfg : Config) (fuel : Nat) (s : MachineState) :
    machineRun cfg (fuel + 1) s =
      match machineStep cfg s with
      | none => s
      | some s2 => machineRun cfg fuel s2 := rfl

theorem machineRun_halted (cfg : Config) (n : Nat) (s : MachineState)
    (h : machineStep cfg s = none) : machineRun cfg n s = s := by
  cases n with
  | zero => rfl
  | succ n => rw [machineRun_succ, h]

theorem machineRun_from_idle (cfg : Config) (l : List JValue) (acc : List CaptureCall) :
    machineRun cfg (2 * l.length)
        { pending := l, jobs := [], calls := acc, awaiting := false, failed := none } =
      match firstThrow cfg l with
      | none =>
          { pending := [], jobs := [], calls := acc ++ (okPrefix cfg l).filterMap (callOf cfg),
            awaiting := false, failed := none }
      | some (e, rest) =>
          { pending := rest, jobs := [],
            calls := acc ++ (okPrefix cfg l).filterMap (callOf cfg),
            awaiting := false, failed := some e } := by
  induction l generalizing acc with
  | nil => simp [machineRun, machineStep, firstThrow, okPrefix]
  | cons c cs ih =>
      have hfuel : 2 * (c :: cs).length = 2 * cs.length + 1 + 1 := by
        simp [List.length_cons]
        ring
      rw [hfuel]
      cases hc : prepareAndGo cfg c with
      | error e =>
          have h1 : machineStep cfg
              { pending := c :: cs, jobs := [], calls := acc, awaiting := false, failed := none } =
              some { pending := cs, jobs := [], calls := acc, awaiting := false,
                     failed := some e } := by
            simp [machineStep, hc]
          rw [machineRun_succ, h1]
          show machineRun cfg (2 * cs.length + 1)
              { pending := cs, jobs := [], calls := acc, awaiting := false,
                failed := some e } = _
          rw [machineRun_halted cfg _ _ (by simp [machineStep])]
          have hthrow : firstThrow cfg (c :: cs) = some (e, cs) := by
            simp [firstThrow, hc]
          have hpre : okPrefix cfg (c :: cs) = [] := by
            simp [okPrefix, List.takeWhile, throwsOn, hc]
          rw [hthrow, hpre]
          simp
      | ok o =>
          have h1 : machineStep cfg
              { pending := c :: cs, jobs := [], calls := acc, awaiting := false, failed := none } =
              some { pending := cs, jobs := [jobFor o], calls := acc, awaiting := true,
                     failed := none } := by
            simp [machineStep, hc]
          rw [machineRun_succ, h1]
          have hnt : throwsOn cfg c = false := by simp [throwsOn, hc]
          have hthrow : firstThrow cfg (c :: cs) = firstThrow cfg cs := by
            simp [firstThrow, hc]
          have hpre : okPrefix cfg (c :: cs) = c :: okPrefix cfg cs := by
            simp [okPrefix, List.takeWhile, hnt]
          rw [hthrow, hpre]
          cases o with
          | none =>
              show machineRun cfg (2 * cs.length + 1)
                  { pending := cs, jobs := [jobFor none], calls := acc, awaiting := true,
                    failed := none } = _
              rw [machineRun_succ]
              show machineRun cfg (2 * cs.length)
                  { pending := cs, jobs := [], calls := acc, awaiting := false,
                    failed := none } = _
              rw [ih acc]
              have hcall : callOf cfg c = none := by simp [callOf, hc]
              cases hft : firstThrow cfg cs <;>
                simp [hft, hcall, List.filterMap_cons]
          | some call =>
              show machineRun cfg (2 * cs.length + 1)
                  { pending := cs, jobs := [jobFor (some call)], calls := acc, awaiting := true,
                    failed := none } = _
              rw [machineRun_succ]
              show machineRun cfg (2 * cs.length)
                  { pending := cs, jobs := [], calls := acc ++ [call], awaiting := false,
                    failed := none } = _
              rw [ih (acc ++ [call])]
              have hcall : callOf cfg c = some call := by simp [callOf, hc]
              cases hft : firstThrow cfg cs <;>
                simp [hft, hcall, List.filterMap_cons, List.append_assoc]

theorem machineStep_jobs_length_le (cfg : Config) (s s2 : MachineState)
    (h : machineStep cfg s = some s2) (hs : s.jobs.length ≤ 1) : s2.jobs.length ≤ 1 := by
  unfold machineStep at h
  split at h
  next j rest heq =>
    cases h
    rw [heq] at hs
    simp only [List.length_cons] at hs
    show rest.length ≤ 1
    omega
  next heq =>
    split at h
    · simp at h
    · split at h
      · simp at h
      · split at h
        · simp at h
        · split at h
          · cases h
            show ([] : List Job).length ≤ 1
            simp
          · cases h
            show [jobFor _].length ≤ 1
            simp

theorem machineRun_jobs_length_le (cfg : Config) (n : Nat) (s : MachineState)
    (hs : s.jobs.length ≤ 1) : (machineRun cfg n s).jobs.length ≤ 1 := by
  induction n generalizing s with
  | zero => exact hs
  | succ n ih =>
      rw [machineRun_succ]
      cases h : machineStep cfg s with
      | none => exact hs
      | some s2 => exact ih s2 (machineStep_jobs_length_le cfg s s2 h hs)

/-- Claim C6 (counterexample): a single well-formed, non-filtered line
whose record carries scalar tags and a truthy hostname produces zero
capture calls — not exactly one — because the strict-mode tags
augmentation throws inside the transform callback and destroys the
stream. -/
theorem stream_throwing_line_counterexample :
    shouldLog Config.default
      (getLogSeverity ((JValue.jobj [("level", JValue.jnum 30), ("tags", JValue.jnum 5),
        ("hostname", JValue.jstr "h")]).field "level")) = true ∧
    (machineRun Config.default 2
        (machineInit [JValue.jobj [("level", JValue.jnum 30), ("tags", JValue.jnum 5),
          ("hostname", JValue.jstr "h")]])).calls = [] ∧
    (machineRun Config.default 2
        (machineInit [JValue.jobj [("level", JValue.jnum 30), ("tags", JValue.jnum 5),
          ("hostname", JValue.jstr "h")]])).failed = some (JValue.typeErrorMsg "hostname") := by
  refine ⟨by rfl, by rfl, by rfl⟩

/-- Claim C6 (amended): running one stream instance over a list of
decoded records (none of which is `null` — split2 would end the stream
there) issues the capture calls in the same relative order as the
records, with exactly one call per non-filtered record, up to the first
record whose processing throws the strict-mode `TypeError`: that record
contributes zero calls and destroys the stream, leaving the records after
it unprocessed.  When no record throws, the input drains completely.  At
every event-loop step at most one record completion callback is
pending. -/
theorem stream_ordering_and_serialization (cfg : Config) (records : List JValue)
    (_hnn : JValue.jnull ∉ records) :
    (machineRun cfg (2 * records.length) (machineInit records)).calls =
      (okPrefix cfg records).filterMap (callOf cfg) ∧
    (firstThrow cfg records = none →
      (machineRun cfg (2 * records.length) (machineInit records)).pending = [] ∧
      (machineRun cfg (2 * records.length) (machineInit records)).failed = none) ∧
    (∀ (e : String) (rest : List JValue), firstThrow cfg records = some (e, rest) →
      (machineRun cfg (2 * records.length) (machineInit records)).pending = rest ∧
      (machineRun cfg (2 * records.length) (machineInit records)).failed = some e) ∧
    (∀ n : Nat, (machineRun cfg n (machineInit records)).jobs.length ≤ 1) := by
  have h := machineRun_from_idle cfg records []
  refine ⟨?_, fun hft => ?_, fun e rest hft => ?_,
    fun n => machineRun_jobs_length_le cfg n _ (by simp [machineInit])⟩
  · show (machineRun cfg (2 * records.length)
        { pending := records, jobs := [], calls := [], awaiting := false, failed := none }).calls = _
    rw [h]
    cases hft : firstThrow cfg records <;> simp [hft]
  · show (machineRun cfg (2 * records.length)
        { pending := records, jobs := [], calls := [], awaiting := false, failed := none }).pending = [] ∧
      (machineRun cfg (2 * records.length)
        { pending := records, jobs := [], calls := [], awaiting := false, failed := none }).failed = none
    rw [h, hft]
    exact ⟨rfl, rfl⟩
  · show (machineRun cfg (2 * records.length)
        { pending := records, jobs := [], calls := [], awaiting := false, failed := none }).pending = rest ∧
      (machineRun cfg (2 * records.length)
        { pending := records, jobs := [], calls := [], awaiting := false, failed := none }).failed = some e
    rw [h, hft]
    exact ⟨rfl, rfl⟩

/-- Witness for the amended C6 theorem: with an info record, a throwing
record and a trailing error record, the machine issues exactly the first
record's message call in order, records the `TypeError`, and leaves the
trailing record unprocessed. -/
theorem stream_ordering_and_serialization_witness :
    (machineRun Config.default
        (2 * ([JValue.jobj [("level", JValue.jnum 30), ("msg", JValue.jstr "a")],
               JValue.jobj [("level", JValue.jnum 30), ("tags", JValue.jnum 5), ("hostname", JValue.jstr "h")],
               JValue.jobj [("level", JValue.jnum 50), ("msg", JValue.jstr "b")]] : List JValue).length)
        (machineInit
          [JValue.jobj [("level", JValue.jnum 30), ("msg", JValue.jstr "a")],
           JValue.jobj [("level", JValue.jnum 30), ("tags", JValue.jnum 5), ("hostname", JValue.jstr "h")],
           JValue.jobj [("level", JValue.jnum 50), ("msg", JValue.jstr "b")]])).calls =
      (okPrefix Config.default
        [JValue.jobj [("level", JValue.jnum 30), ("msg", JValue.jstr "a")],
         JValue.jobj [("level", JValue.jnum 30), ("tags", JValue.jnum 5), ("hostname", JValue.jstr "h")],
         JValue.jobj [("level", JValue.jnum 50), ("msg", JValue.jstr "b")]]).filterMap
        (callOf Config.default) ∧
    (machineRun Config.default
        (2 * ([JValue.jobj [("level", JValue.jnum 30), ("msg", JValue.jstr "a")],
               JValue.jobj [("level", JValue.jnum 30), ("tags", JValue.jnum 5), ("hostname", JValue.jstr "h")],
               JValue.jobj [("level", JValue.jnum 50), ("msg", JValue.jstr "b")]] : List JValue).length)
        (machineInit
          [JValue.jobj [("level", JValue.jnum 30), ("msg", JValue.jstr "a")],
           JValue.jobj [("level", JValue.jnum 30), ("tags", JValue.jnum 5), ("hostname", JValue.jstr "h")],
           JValue.jobj [("level", JValue.jnum 50), ("msg", JValue.jstr "b")]])).pending =
      [JValue.jobj [("level", JValue.jnum 50), ("msg", JValue.jstr "b")]] :=
  ⟨(stream_ordering_and_serialization Config.default
      [JValue.jobj [("level", JValue.jnum 30), ("msg", JValue.jstr "a")],
       JValue.jobj [("level", JValue.jnum 30), ("tags", JValue.jnum 5), ("hostname", JValue.jstr "h")],
       JValue.jobj [("level", JValue.jnum 50), ("msg", JValue.jstr "b")]] (by simp)).1,
   ((stream_ordering_and_serialization Config.default
      [JValue.jobj [("level", JValue.jnum 30), ("msg", JValue.jstr "a")],
       JValue.jobj [("level", JValue.jnum 30), ("tags", JValue.jnum 5), ("hostname", JValue.jstr "h")],
       JValue.jobj [("level", JValue.jnum 50), ("msg", JValue.jstr "b")]] (by simp)).2.2.1
      (JValue.typeErrorMsg "hostname")
      [JValue.jobj [("level", JValue.jnum 50), ("msg", JValue.jstr "b")]] (by rfl)).1⟩

/-- Claim C7 (counterexample): the empty string is outside the closed
severity-name set, yet constructing a transport with `level: ""` does not
raise — `if (options.level)` treats the falsy empty string as absent, so
validation is skipped and construction succeeds (with the missing-DSN
warning, DSN being absent here too). -/
theorem validateOptions_empty_level_counterexample :
    validateOptions { level := some "" } none =
      Except.ok { config := Config.default, dsnWarning := true } ∧
    "" ∉ severityIotaKeys := by
  exact ⟨rfl, by decide⟩

/-- Claim C7 (amended): constructing a transport with a non-empty `level`
option outside the closed severity-name set raises synchronously, during
`validateOptions` (run by the constructor before any record is processed),
with an error message naming the allowed level set; an empty-string
`level` is treated as absent and skips validation.  Constructing with no
DSN option and no environment fallback does not raise: it emits the
warning and the transport still processes records. -/
theorem validateOptions_validation (lvl : String) (opts : TransportOptions)
    (envDsn : Option String) (hlvl : opts.level = some lvl) (hne : lvl ≠ "")
    (hout : severityIotaKeys.contains lvl = false) :
    validateOptions opts envDsn = Except.error (levelErrorMessage lvl) ∧
    levelErrorMessage lvl =
      "[pino-sentry] Option `level` must be one of: debug, log, info, warning, error, fatal, critical. Received: "
        ++ lvl ∧
    validateOptions {} none = Except.ok { config := Config.default, dsnWarning := true } ∧
    (∃ c : CaptureCall,
      prepareAndGo Config.default
          (JValue.jobj [("level", JValue.jnum 30), ("msg", JValue.jstr "ok")]) =
        Except.ok (some c)) := by
  refine ⟨?_, by rfl, by rfl, ⟨_, rfl⟩⟩
  have hmem : lvl ∉ severityIotaKeys := by
    simpa using hout
  unfold validateOptions
  rw [hlvl]
  simp [hne, hmem]

/-- Witness for the amended C7 theorem: `level: "bogus"` is rejected with
the documented message. -/
theorem validateOptions_validation_witness :
    validateOptions { level := some "bogus" } none =
      Except.error (levelErrorMessage "bogus") :=
  (validateOptions_validation "bogus" { level := some "bogus" } none rfl
    (by decide) (by decide)).1

theorem foldl_setExtra_tags (l : List (String × JValue)) (s : Scope) :
    (l.foldl (fun s kv => s.setExtra kv.1 kv.2) s).tags = s.tags := by
  induction l generalizing s with
  | nil => rfl
  | cons kv rest ih => simpa [Scope.setExtra] using ih (s.setExtra kv.1 kv.2)

theorem foldl_addBreadcrumb_tags (l : List JValue) (s : Scope) :
    (l.foldl (fun s b => s.addBreadcrumb b) s).tags = s.tags := by
  induction l generalizing s with
  | nil => rfl
  | cons b rest ih => simpa [Scope.addBreadcrumb] using ih (s.addBreadcrumb b)

theorem foldl_setTag_breadcrumbs (l : List (String × JValue)) (s : Scope) :
    (l.foldl (fun s kv => s.setTag kv.1 kv.2) s).breadcrumbs = s.breadcrumbs := by
  induction l generalizing s with
  | nil => rfl
  | cons kv rest ih => simpa [Scope.setTag] using ih (s.setTag kv.1 kv.2)

theorem foldl_setExtra_breadcrumbs (l : List (String × JValue)) (s : Scope) :
    (l.foldl (fun s kv => s.setExtra kv.1 kv.2) s).breadcrumbs = s.breadcrumbs := by
  induction l generalizing s with
  | nil => rfl
  | cons kv rest ih => simpa [Scope.setExtra] using ih (s.setExtra kv.1 kv.2)

theorem buildExtra_isObject (cfg : Config) (chunk : JValue) :
    isObject (buildExtra cfg chunk) = true := rfl

theorem prepareAndGo_isSome_of_pass (cfg : Config) (chunk : JValue) (tags : JValue)
    (hpass : shouldLog cfg (getLogSeverity (chunk.field "level")) = true)
    (htags : buildTags chunk = Except.ok tags) :
    ∃ c : CaptureCall, prepareAndGo cfg chunk = Except.ok (some c) := by
  by_cases h : isSentryException cfg (getLogSeverity (chunk.field "level")) = true
  · exact ⟨CaptureCall.exc
        (dispatchError (jsGet chunk cfg.messageAttributeKey)
          (JValue.jsOrD (jsGet chunk cfg.stackAttributeKey) (JValue.jstr "")))
        (buildScope cfg chunk (getLogSeverity (chunk.field "level")) tags),
      by simp [prepareAndGo, hpass, htags, h]⟩
  · exact ⟨CaptureCall.msg (jsGet chunk cfg.messageAttributeKey)
        (buildScope cfg chunk (getLogSeverity (chunk.field "level")) tags),
      by simp [prepareAndGo, hpass, htags, h]⟩

/-- Claim C8 (counterexample): in the record
`\x7b"level":30,"tags":5,"hostname":"h"\x7d` the tags resolve to the
scalar `5` (a non-mapping), yet processing does not skip the section and
dispatch the rest: the strict-mode write `tags.hostname = ...` throws a
`TypeError` before the scope-population guard is reached and the record
is not dispatched at all. -/
theorem buildScope_scalar_tags_throw_counterexample :
    JValue.jsOrD ((JValue.jobj [("level", JValue.jnum 30), ("tags", JValue.jnum 5),
      ("hostname", JValue.jstr "h")]).field "tags") (JValue.jobj []) = JValue.jnum 5 ∧
    isObject (JValue.jnum 5) = false ∧
    prepareAndGo Config.default
        (JValue.jobj [("level", JValue.jnum 30), ("tags", JValue.jnum 5), ("hostname", JValue.jstr "h")]) =
      Except.error (JValue.typeErrorMsg "hostname") := by
  refine ⟨by rfl, by rfl, by rfl⟩

/-- Claim C8 (amended): for every passing non-null record whose tags
augmentation does not throw, a non-mapping (truthy scalar) resolved tags
or breadcrumbs value makes the corresponding scope-population section a
skip (the scope keeps whatever the decoration hook left there) rather
than raising, and the record is still dispatched; the resolved extra
container is always a mapping, so its section is never in that position.
When the tags value is a truthy scalar and one of
`reqId`/`responseTime`/`hostname` is present and truthy, the strict-mode
augmentation throws a `TypeError` instead and nothing is dispatched. -/
theorem buildScope_scalar_sections_skipped (cfg : Config) (chunk : JValue)
    (_hnn : chunk ≠ JValue.jnull)
    (hpass : shouldLog cfg (getLogSeverity (chunk.field "level")) = true) :
    (∀ tags : JValue, buildTags chunk = Except.ok tags → isObject tags = false →
      (buildScope cfg chunk (getLogSeverity (chunk.field "level")) tags).tags =
        (cfg.decorateScope chunk Scope.empty).tags) ∧
    (∀ tags : JValue, buildTags chunk = Except.ok tags →
      isObject (buildBreadcrumbs chunk) = false →
      (buildScope cfg chunk (getLogSeverity (chunk.field "level")) tags).breadcrumbs =
        (cfg.decorateScope chunk Scope.empty).breadcrumbs) ∧
    isObject (buildExtra cfg chunk) = true ∧
    (∀ tags : JValue, buildTags chunk = Except.ok tags →
      ∃ c : CaptureCall, prepareAndGo cfg chunk = Except.ok (some c)) ∧
    (∀ e : String, buildTags chunk = Except.error e →
      prepareAndGo cfg chunk = Except.error e) := by
  refine ⟨fun tags _ htags => ?_, fun tags _ hbc => ?_, buildExtra_isObject cfg chunk,
    fun tags ht => prepareAndGo_isSome_of_pass cfg chunk tags hpass ht,
    fun e he => by simp [prepareAndGo, hpass, he]⟩
  · unfold buildScope
    simp only [htags, Bool.false_eq_true, if_false, buildExtra_isObject, if_true]
    split <;>
      simp [foldl_addBreadcrumb_tags, foldl_setExtra_tags, Scope.setLevel]
  · unfold buildScope
    simp only [hbc, Bool.false_eq_true, if_false, buildExtra_isObject, if_true]
    split <;>
      simp [foldl_setTag_breadcrumbs, foldl_setExtra_breadcrumbs, Scope.setLevel]

/-- Witness for the amended C8 theorem: a record with scalar `tags`,
scalar `breadcrumbs` and no truthy augmentation sources leaves both
sections untouched and is still dispatched; the same scalar tags with a
truthy hostname throws instead. -/
theorem buildScope_scalar_sections_skipped_witness :
    (buildScope Config.default
        (JValue.jobj [("level", JValue.jnum 30), ("tags", JValue.jnum 5), ("breadcrumbs", JValue.jstr "x")])
        (getLogSeverity ((JValue.jobj [("level", JValue.jnum 30), ("tags", JValue.jnum 5), ("breadcrumbs", JValue.jstr "x")]).field "level"))
        (JValue.jnum 5)).tags = [] ∧
    (buildScope Config.default
        (JValue.jobj [("level", JValue.jnum 30), ("tags", JValue.jnum 5), ("breadcrumbs", JValue.jstr "x")])
        (getLogSeverity ((JValue.jobj [("level", JValue.jnum 30), ("tags", JValue.jnum 5), ("breadcrumbs", JValue.jstr "x")]).field "level"))
        (JValue.jnum 5)).breadcrumbs = [] ∧
    (∃ c : CaptureCall,
      prepareAndGo Config.default
          (JValue.jobj [("level", JValue.jnum 30), ("tags", JValue.jnum 5), ("breadcrumbs", JValue.jstr "x")]) =
        Except.ok (some c)) ∧
    prepareAndGo Config.default
        (JValue.jobj [("level", JValue.jnum 30), ("tags", JValue.jnum 5), ("hostname", JValue.jstr "h")]) =
      Except.error (JValue.typeErrorMsg "hostname") :=
  ⟨(buildScope_scalar_sections_skipped Config.default
      (JValue.jobj [("level", JValue.jnum 30), ("tags", JValue.jnum 5), ("breadcrumbs", JValue.jstr "x")])
      (by simp) (by rfl)).1 (JValue.jnum 5) (by rfl) (by rfl),
   (buildScope_scalar_sections_skipped Config.default
      (JValue.jobj [("level", JValue.jnum 30), ("tags", JValue.jnum 5), ("breadcrumbs", JValue.jstr "x")])
      (by simp) (by rfl)).2.1 (JValue.jnum 5) (by rfl) (by rfl),
   (buildScope_scalar_sections_skipped Config.default
      (JValue.jobj [("level", JValue.jnum 30), ("tags", JValue.jnum 5), ("breadcrumbs", JValue.jstr "x")])
      (by simp) (by rfl)).2.2.2.1 (JValue.jnum 5) (by rfl),
   (buildScope_scalar_sections_skipped Config.default
      (JValue.jobj [("level", JValue.jnum 30), ("tags", JValue.jnum 5), ("hostname", JValue.jstr "h")])
      (by simp) (by rfl)).2.2.2.2 (JValue.typeErrorMsg "hostname") (by rfl)⟩

theorem lookup_assocSet_self (l : List (String × JValue)) (k : String) (v : JValue) :
    (JValue.assocSet l k v).lookup k = some v := by
  induction l with
  | nil => simp [JValue.assocSet, List.lookup]
  | cons p rest ih =>
      obtain ⟨k', v'⟩ := p
      by_cases h : k' = k
      · simp [JValue.assocSet, h, List.lookup]
      · have hbeq : (k == k') = false := beq_eq_false_iff_ne.mpr (Ne.symm h)
        simp [JValue.assocSet, h, List.lookup, hbeq, ih]

theorem lookup_assocSet_ne (l : List (String × JValue)) (k k2 : String) (v : JValue)
    (h : k ≠ k2) : (JValue.assocSet l k v).lookup k2 = l.lookup k2 := by
  have hbeq : (k2 == k) = false := beq_eq_false_iff_ne.mpr (Ne.symm h)
  induction l with
  | nil => simp [JValue.assocSet, List.lookup, hbeq]
  | cons p rest ih =>
      obtain ⟨k', v'⟩ := p
      by_cases hk : k' = k
      · subst hk
        simp [JValue.assocSet, List.lookup, hbeq]
      · simp only [JValue.assocSet, if_neg hk, List.lookup]
        cases hc : k2 == k' <;> simp [hc, ih]

theorem field_setField_ne (tags : JValue) (dst k : String) (v t : JValue)
    (hd : JValue.decIndex dst = none) (h : dst ≠ k)
    (hset : tags.setField dst v = Except.ok t) : t.field k = tags.field k := by
  cases tags with
  | jnull => simp [JValue.setField] at hset
  | jbool b => simp [JValue.setField] at hset
  | jnum n => simp [JValue.setField] at hset
  | jstr s => simp [JValue.setField] at hset
  | jobj fields =>
      simp only [JValue.setField, Except.ok.injEq] at hset
      subst hset
      simp [JValue.field, lookup_assocSet_ne _ _ _ _ h]
  | jarr elems props =>
      simp only [JValue.setField, hd, Except.ok.injEq] at hset
      subst hset
      cases hdk : JValue.decIndex k with
      | some i => simp [JValue.field, hdk]
      | none =>
          by_cases hlen : k = "length"
          · simp [JValue.field, hdk, hlen]
          · simp [JValue.field, hdk, hlen, lookup_assocSet_ne _ _ _ _ h]
  | jerror name msg stk props =>
      simp only [JValue.setField, Except.ok.injEq] at hset
      subst hset
      simp [JValue.field, lookup_assocSet_ne _ _ _ _ h]

theorem field_augmentIf_other (tags : JValue) (cond : Option JValue) (dst k : String)
    (t : JValue) (hd : JValue.decIndex dst = none) (h : dst ≠ k)
    (haug : augmentIf tags cond dst = Except.ok t) : t.field k = tags.field k := by
  cases cond with
  | none =>
      simp only [augmentIf, Except.ok.injEq] at haug
      subst haug
      rfl
  | some v =>
      by_cases ht : v.truthy = true
      · simp only [augmentIf, ht, if_true] at haug
        exact field_setField_ne tags dst k v t hd h haug
      · simp only [augmentIf, ht, Bool.false_eq_true, if_false, Except.ok.injEq] at haug
        subst haug
        rfl

theorem field_augmentIf_self (fields : List (String × JValue)) (v t : JValue) (dst : String)
    (ht : v.truthy = true)
    (haug : augmentIf (JValue.jobj fields) (some v) dst = Except.ok t) :
    t.field dst = some v := by
  simp only [augmentIf, ht, if_true, JValue.setField, Except.ok.injEq] at haug
  subst haug
  simp [JValue.field, lookup_assocSet_self]

theorem augmentIf_falsy (tags : JValue) (cond : Option JValue) (dst : String)
    (h : JValue.truthyOpt cond = false) : augmentIf tags cond dst = Except.ok tags := by
  cases cond with
  | none => rfl
  | some v => simp_all [augmentIf, JValue.truthyOpt]

theorem augmentIf_jobj (fields : List (String × JValue)) (cond : Option JValue) (dst : String) :
    ∃ g, augmentIf (JValue.jobj fields) cond dst = Except.ok (JValue.jobj g) := by
  cases cond with
  | none => exact ⟨fields, rfl⟩
  | some v =>
      by_cases ht : v.truthy = true
      · exact ⟨JValue.assocSet fields dst v, by simp [augmentIf, ht, JValue.setField]⟩
      · exact ⟨fields, by simp [augmentIf, ht]⟩

/-- Claim C9 (counterexample): the record `\x7b"responseTime": 0\x7d` has a
`responseTime` field present in the source record, yet the augmented tags
mapping carries no `responseTime` entry — `if (chunk.responseTime)` tests
truthiness, and `0` is falsy. -/
theorem buildTags_responseTime_zero_counterexample :
    (JValue.jobj [("responseTime", JValue.jnum 0)]).field "responseTime"
      = some (JValue.jnum 0) ∧
    buildTags (JValue.jobj [("responseTime", JValue.jnum 0)]) = Except.ok (JValue.jobj []) ∧
    (JValue.jobj []).field "responseTime" = none := by
  refine ⟨by rfl, by rfl, by rfl⟩

/-- Claim C9 (amended): for every record whose tags value resolves to a
mapping (the record's `tags` object, or the fresh empty mapping when
`tags` is absent or falsy), the augmentation succeeds and yields a
mapping augmented in-place with the record's request-id under `uuid`, its
response-time under `responseTime`, and its hostname under `hostname`,
exactly when each of those source fields is present *and truthy*; a
source field that is absent or falsy contributes no tag entry beyond
whatever the record's own tags already held. -/
theorem buildTags_augmentation (chunk : JValue) (fields : List (String × JValue))
    (htags : JValue.jsOrD (chunk.field "tags") (JValue.jobj []) = JValue.jobj fields) :
    ∃ t : JValue, buildTags chunk = Except.ok t ∧
      (∀ v : JValue, chunk.field "reqId" = some v → v.truthy = true →
        t.field "uuid" = some v) ∧
      (JValue.truthyOpt (chunk.field "reqId") = false →
        t.field "uuid" = (JValue.jobj fields).field "uuid") ∧
      (∀ v : JValue, chunk.field "responseTime" = some v → v.truthy = true →
        t.field "responseTime" = some v) ∧
      (JValue.truthyOpt (chunk.field "responseTime") = false →
        t.field "responseTime" = (JValue.jobj fields).field "responseTime") ∧
      (∀ v : JValue, chunk.field "hostname" = some v → v.truthy = true →
        t.field "hostname" = some v) ∧
      (JValue.truthyOpt (chunk.field "hostname") = false →
        t.field "hostname" = (JValue.jobj fields).field "hostname") := by
  obtain ⟨g1, hg1⟩ := augmentIf_jobj fields (chunk.field "reqId") "uuid"
  obtain ⟨g2, hg2⟩ := augmentIf_jobj g1 (chunk.field "responseTime") "responseTime"
  obtain ⟨g3, hg3⟩ := augmentIf_jobj g2 (chunk.field "hostname") "hostname"
  have hok : buildTags chunk = Except.ok (JValue.jobj g3) := by
    simp only [buildTags, htags, hg1, hg2, hg3]
  refine ⟨JValue.jobj g3, hok, ?_, ?_, ?_, ?_, ?_, ?_⟩
  · intro v hv ht
    rw [field_augmentIf_other _ _ _ _ _ (by rfl) (by decide) hg3,
      field_augmentIf_other _ _ _ _ _ (by rfl) (by decide) hg2]
    rw [hv] at hg1
    exact field_augmentIf_self fields v _ "uuid" ht hg1
  · intro hfal
    rw [field_augmentIf_other _ _ _ _ _ (by rfl) (by decide) hg3,
      field_augmentIf_other _ _ _ _ _ (by rfl) (by decide) hg2]
    rw [augmentIf_falsy _ _ _ hfal] at hg1
    have : JValue.jobj fields = JValue.jobj g1 := by
      simpa using hg1
    rw [← this]
  · intro v hv ht
    rw [field_augmentIf_other _ _ _ _ _ (by rfl) (by decide) hg3]
    rw [hv] at hg2
    exact field_augmentIf_self g1 v _ "responseTime" ht hg2
  · intro hfal
    rw [field_augmentIf_other _ _ _ _ _ (by rfl) (by decide) hg3]
    rw [augmentIf_falsy _ _ _ hfal] at hg2
    have hgg : JValue.jobj g1 = JValue.jobj g2 := by
      simpa using hg2
    rw [← hgg]
    exact field_augmentIf_other _ _ _ _ _ (by rfl) (by decide) hg1
  · intro v hv ht
    rw [hv] at hg3
    exact field_augmentIf_self g2 v _ "hostname" ht hg3
  · intro hfal
    rw [augmentIf_falsy _ _ _ hfal] at hg3
    have hgg : JValue.jobj g2 = JValue.jobj g3 := by
      simpa using hg3
    rw [← hgg]
    rw [field_augmentIf_other _ _ _ _ _ (by rfl) (by decide) hg2]
    exact field_augmentIf_other _ _ _ _ _ (by rfl) (by decide) hg1

/-- Witness for the amended C9 theorem: a record with a truthy request-id
and a falsy response-time gains a `uuid` tag and no `responseTime` tag. -/
theorem buildTags_augmentation_witness :
    buildTags (JValue.jobj [("reqId", JValue.jstr "r1"), ("responseTime", JValue.jnum 0)]) =
      Except.ok (JValue.jobj [("uuid", JValue.jstr "r1")]) ∧
    (JValue.jobj [("uuid", JValue.jstr "r1")]).field "uuid" = some (JValue.jstr "r1") ∧
    (JValue.jobj [("uuid", JValue.jstr "r1")]).field "responseTime" = none := by
  obtain ⟨t, hok, h1, h2, h3, h4, h5, h6⟩ :=
    buildTags_augmentation
      (JValue.jobj [("reqId", JValue.jstr "r1"), ("responseTime", JValue.jnum 0)]) [] (by rfl)
  have hexp : buildTags (JValue.jobj [("reqId", JValue.jstr "r1"), ("responseTime", JValue.jnum 0)]) =
      Except.ok (JValue.jobj [("uuid", JValue.jstr "r1")]) := by rfl
  have ht : t = JValue.jobj [("uuid", JValue.jstr "r1")] := by
    rw [hexp] at hok
    simpa using hok.symm
  refine ⟨hexp, ?_, ?_⟩
  · rw [← ht]
    exact h1 (JValue.jstr "r1") (by rfl) (by rfl)
  · rw [← ht]
    exact (h4 (by rfl)).trans (by rfl)

/-- Claim C10: for a record routed as an exception (so its processing did
not throw) whose extracted message is a plain string (not an Error
instance), the synthesized `ExtendedError` has name `"Error"`, message
equal to the extracted message, and a stack equal to the record's
extracted stack text when that text is a non-empty string — but equal to
`null`, not the empty string, when the record has no stack field: the
`''` default from `get(...) || ''` is replaced by `null` by
`this.stack = info.stack || null`. -/
theorem extendedError_stack_null (cfg : Config) (chunk : JValue) (s : String) (tags : JValue)
    (hpass : shouldLog cfg (getLogSeverity (chunk.field "level")) = true)
    (hexc : isSentryException cfg (getLogSeverity (chunk.field "level")) = true)
    (htags : buildTags chunk = Except.ok tags)
    (hmsg : jsGet chunk cfg.messageAttributeKey = some (JValue.jstr s)) :
    (∀ t : String, t ≠ "" → jsGet chunk cfg.stackAttributeKey = some (JValue.jstr t) →
      prepareAndGo cfg chunk =
        Except.ok (some (CaptureCall.exc (JValue.jerror "Error" s (JValue.jstr t) [])
          (buildScope cfg chunk (getLogSeverity (chunk.field "level")) tags)))) ∧
    (jsGet chunk cfg.stackAttributeKey = none →
      prepareAndGo cfg chunk =
        Except.ok (some (CaptureCall.exc (JValue.jerror "Error" s JValue.jnull [])
          (buildScope cfg chunk (getLogSeverity (chunk.field "level")) tags)))) ∧
    JValue.jnull ≠ JValue.jstr "" := by
  refine ⟨?_, ?_, by simp⟩
  · intro t ht hstk
    simp [prepareAndGo, hpass, hexc, htags, hmsg, hstk, dispatchError, instanceOfError,
      extendedError, JValue.jsOrD, JValue.truthy, JValue.jsToString, ht]
  · intro hstk
    simp [prepareAndGo, hpass, hexc, htags, hmsg, hstk, dispatchError, instanceOfError,
      extendedError, JValue.jsOrD, JValue.truthy, JValue.jsToString]

/-- Witness for the C10 theorem: with a `level=50` record, message
`"boom"` and stack `"tb"` the synthesized error is
`Error("boom")` with stack `"tb"`; without a stack field its stack is
`null`. -/
theorem extendedError_stack_null_witness :
    prepareAndGo Config.default
        (JValue.jobj [("level", JValue.jnum 50), ("msg", JValue.jstr "boom"), ("stack", JValue.jstr "tb")]) =
      Except.ok (some (CaptureCall.exc (JValue.jerror "Error" "boom" (JValue.jstr "tb") [])
        (buildScope Config.default
          (JValue.jobj [("level", JValue.jnum 50), ("msg", JValue.jstr "boom"), ("stack", JValue.jstr "tb")])
          (getLogSeverity ((JValue.jobj [("level", JValue.jnum 50), ("msg", JValue.jstr "boom"), ("stack", JValue.jstr "tb")]).field "level"))
          (JValue.jobj [])))) ∧
    prepareAndGo Config.default (JValue.jobj [("level", JValue.jnum 50), ("msg", JValue.jstr "boom")]) =
      Except.ok (some (CaptureCall.exc (JValue.jerror "Error" "boom" JValue.jnull [])
        (buildScope Config.default (JValue.jobj [("level", JValue.jnum 50), ("msg", JValue.jstr "boom")])
          (getLogSeverity ((JValue.jobj [("level", JValue.jnum 50), ("msg", JValue.jstr "boom")]).field "level"))
          (JValue.jobj [])))) :=
  ⟨(extendedError_stack_null Config.default
      (JValue.jobj [("level", JValue.jnum 50), ("msg", JValue.jstr "boom"), ("stack", JValue.jstr "tb")])
      "boom" (JValue.jobj []) (by rfl) (by rfl) (by rfl) (by rfl)).1 "tb" (by decide) (by rfl),
   (extendedError_stack_null Config.default
      (JValue.jobj [("level", JValue.jnum 50), ("msg", JValue.jstr "boom")])
      "boom" (JValue.jobj []) (by rfl) (by rfl) (by rfl) (by rfl)).2.1 (by rfl)⟩
